import Mathlib

/-!
Verification of the list-reconciliation and episode-state engine of the
"my-list-table-view" plugin (src/plugins/delete-watched-episodes/code.ts).

The TypeScript source is shallowly embedded: JS strings become `String`,
JS integers become `ℕ`/`ℤ` (all episode counts in the plugin are
non-negative integers), JS numbers used for scores become `ℚ`,
`null`/`undefined` becomes `Option`, and fallible external calls become
`Except`.  The external `String.prototype.localeCompare` (default options
and with sensitivity "base") is modelled for ASCII data by an explicit
collation: primary key = letters folded to lower case, tertiary key =
case (lower case before upper case), which is the behaviour of the
default `en` collation on ASCII strings.
-/

namespace SeanimeTable

/-! ## JS string primitives -/

/-- Characters removed by `String.prototype.trim` (the ASCII ones that can
occur in the plugin's status tokens). -/
def isJsWhitespace (c : Char) : Bool :=
  c == ' ' || c == '\t' || c == '\n' || c == '\r' || c == Char.ofNat 11 || c == Char.ofNat 12

/-- `String.prototype.trim` on the character list. -/
def jsTrimList (l : List Char) : List Char :=
  ((l.dropWhile isJsWhitespace).reverse.dropWhile isJsWhitespace).reverse

/-- `String.prototype.trim`. -/
def jsTrim (s : String) : String := ⟨jsTrimList s.data⟩

/-- `String.prototype.toUpperCase` (ASCII). -/
def jsToUpper (s : String) : String := ⟨s.data.map Char.toUpper⟩

/-- JS `a || b` for an optional string `a` (empty string is falsy). -/
def jsStrOrOpt (a b : Option String) : Option String :=
  match a with
  | some s => if s = "" then b else some s
  | none => b

/-- JS `a || d` for an optional string `a` and a default `d`. -/
def jsStrOr (a : Option String) (d : String) : String :=
  match a with
  | some s => if s = "" then d else s
  | none => d

/-! ## Model of `localeCompare` (ICU default `en` collation, ASCII fragment)

`loadRows` sorts with `a.title.localeCompare(b.title)` (default options:
case participates as a tertiary difference, lower case first), while the
view's `compareText` passes `{ sensitivity: "base" }` (case ignored). -/

/-- Primary collation weight of a character: upper-case ASCII letters are
folded onto the corresponding lower-case letter. -/
def charPrimary (c : Char) : ℕ :=
  if 65 ≤ c.toNat ∧ c.toNat ≤ 90 then c.toNat + 32 else c.toNat

/-- Tertiary (case) collation weight: lower case before upper case. -/
def charCaseWeight (c : Char) : ℕ :=
  if 65 ≤ c.toNat ∧ c.toNat ≤ 90 then 1 else 0

/-- Three-way lexicographic comparison of weight lists, returning -1/0/1. -/
def lexCmp : List ℕ → List ℕ → ℤ
  | [], [] => 0
  | [], _ :: _ => -1
  | _ :: _, [] => 1
  | a :: as, b :: bs => if a < b then -1 else if b < a then 1 else lexCmp as bs

/-- Model of `a.localeCompare(b)` with default options: compare base
letters first, then break ties by case (lower case first). -/
def localeCompare (a b : String) : ℤ :=
  let primary := lexCmp (a.data.map charPrimary) (b.data.map charPrimary)
  if primary = 0 then lexCmp (a.data.map charCaseWeight) (b.data.map charCaseWeight)
  else primary

/-- Model of `a.localeCompare(b, undefined, { sensitivity: "base" })`:
case differences are invisible. -/
def localeCompareBase (a b : String) : ℤ :=
  lexCmp (a.data.map charPrimary) (b.data.map charPrimary)

/-! ## Status normalizer (`normalizeStatus`) -/

/-- The five canonical list categories (`TableStatus` in the source). -/
inductive TableStatus where
  | CURRENT
  | COMPLETED
  | PAUSED
  | DROPPED
  | PLANNING
deriving DecidableEq

/-- The `switch` statement inside `normalizeStatus`: matches the trimmed,
upper-cased token; every unrecognised token falls through to `CURRENT`. -/
def statusSwitch (s : String) : TableStatus :=
  if s = "CURRENT" then .CURRENT
  else if s = "REPEATING" then .CURRENT
  else if s = "COMPLETED" then .COMPLETED
  else if s = "PAUSED" then .PAUSED
  else if s = "DROPPED" then .DROPPED
  else if s = "PLANNING" then .PLANNING
  else .CURRENT

/-- `normalizeStatus(status?)`: `if (!status) return undefined` (absent or
empty string is falsy), otherwise trim, upper-case and dispatch. -/
def normalizeStatus : Option String → Option TableStatus
  | none => none
  | some status =>
    if status = "" then none
    else some (statusSwitch (jsToUpper (jsTrim status)))

/-! ## Score normalizer (`normalizeScoreToTen`) -/

/-- JS `Math.round` on an exact rational: round half toward positive
infinity, i.e. `⌊x + 1/2⌋`. -/
def jsRound (q : ℚ) : ℤ := ⌊q + 1/2⌋

/-- `normalizeScoreToTen(score?)`: `0` and absent are falsy and yield
`null`; a raw value above `10` is divided by `10`; the result is rounded
to one decimal via `Math.round(normalized * 10) / 10`. -/
def normalizeScoreToTen : Option ℚ → Option ℚ
  | none => none
  | some score =>
    if score = 0 then none
    else
      let normalized := if 10 < score then score / 10 else score
      some ((jsRound (normalized * 10) : ℚ) / 10)

/-! ## Row data model (`TableRow`) -/

/-- State of one episode pill in the episode-state timeline. -/
inductive EpisodeState where
  | watched
  | downloaded
  | missing
deriving DecidableEq

/-- One `{episode, state}` element of `episodeStatuses`. -/
structure EpisodeStatus where
  episode : ℕ
  state : EpisodeState
deriving DecidableEq

/-- The per-title canonical row record (`TableRow` in the source). -/
structure TableRow where
  entryId : ℕ
  mediaId : ℕ
  title : String
  coverImage : String
  progress : ℕ
  latestEpisode : Option ℕ
  totalEpisodes : Option ℕ
  releasedUnwatched : Option ℕ
  downloadedUnwatched : Option ℕ
  neededToDownload : Option ℕ
  episodeStatuses : Option (List EpisodeStatus)
  hiddenEpisodeStatusCount : ℕ
  score : Option ℚ
  status : TableStatus
  format : String
  siteUrl : String
deriving DecidableEq

/-! ## Remote collection shape (the AniList query result, nullable at
every level) -/

/-- The name variants of a title record. -/
structure MediaTitle where
  userPreferred : Option String
  romaji : Option String
  english : Option String
  native : Option String
deriving DecidableEq

/-- The cover-image variants of a title record. -/
structure MediaCoverImage where
  large : Option String
  medium : Option String
  extraLarge : Option String
deriving DecidableEq

/-- `media.nextAiringEpisode`. -/
structure NextAiringEpisode where
  episode : Option ℤ
deriving DecidableEq

/-- The underlying title record (`AL_BaseAnime`). -/
structure BaseAnime where
  id : ℕ
  title : Option MediaTitle
  coverImage : Option MediaCoverImage
  episodes : Option ℕ
  nextAiringEpisode : Option NextAiringEpisode
  format : Option String
  siteUrl : Option String
deriving DecidableEq

/-- One raw list entry. -/
structure ListEntry where
  id : ℕ
  media : Option BaseAnime
  progress : Option ℕ
  score : Option ℚ
  status : Option String
deriving DecidableEq

/-- One category list of the remote collection. -/
structure MediaList where
  status : Option String
  entries : Option (List ListEntry)
deriving DecidableEq

/-- The remote collection tree (`collection.MediaListCollection?.lists`). -/
structure AnimeCollection where
  lists : Option (List MediaList)
deriving DecidableEq

/-! ## Row projector (`toTitle`, `toRow`) -/

/-- `toTitle(media?)`: first non-empty of the ordered name variants, else
a synthesized placeholder. -/
def toTitle (media : Option BaseAnime) : String :=
  let title := media.bind BaseAnime.title
  jsStrOr (title.bind MediaTitle.userPreferred)
    (jsStrOr (title.bind MediaTitle.romaji)
      (jsStrOr (title.bind MediaTitle.english)
        (jsStrOr (title.bind MediaTitle.native)
          ("Anime #" ++ (match media with
            | some m => toString m.id
            | none => "?")))))

/-- `toRow(entry, fallbackStatus?)`: projects one raw entry into a
canonical row, or `none` when the entry has no media record or no
normalizable status.  `parseInt(String(media.episodes)) || null` maps an
absent count or the (falsy) count `0` to `null`. -/
def toRow (entry : ListEntry) (fallbackStatus : Option String) : Option TableRow :=
  match entry.media with
  | none => none
  | some media =>
    match normalizeStatus (jsStrOrOpt entry.status fallbackStatus) with
    | none => none
    | some status =>
      let totalEpisodes : Option ℕ :=
        match media.episodes with
        | some n => if n = 0 then none else some n
        | none => none
      let nextAiring : Option ℤ := media.nextAiringEpisode.bind NextAiringEpisode.episode
      let latestUncapped : Option ℕ :=
        match nextAiring with
        | some n => some (n - 1).toNat
        | none => totalEpisodes
      let latestEpisode : Option ℕ :=
        match latestUncapped, totalEpisodes with
        | some l, some t => some (min l t)
        | l, _ => l
      let progress := entry.progress.getD 0
      some {
        entryId := entry.id
        mediaId := media.id
        title := toTitle (some media)
        coverImage :=
          jsStrOr (media.coverImage.bind MediaCoverImage.large)
            (jsStrOr (media.coverImage.bind MediaCoverImage.medium)
              (jsStrOr (media.coverImage.bind MediaCoverImage.extraLarge) ""))
        progress := progress
        latestEpisode := latestEpisode
        totalEpisodes := totalEpisodes
        releasedUnwatched := latestEpisode.map (fun l => l - progress)
        downloadedUnwatched := none
        neededToDownload := none
        episodeStatuses := none
        hiddenEpisodeStatusCount := 0
        score := normalizeScoreToTen entry.score
        status := status
        format := jsStrOr media.format "-"
        siteUrl := jsStrOr media.siteUrl ("https://anilist.co/anime/" ++ toString media.id)
      }

/-! ## Collection loader (`loadRows`) -/

/-- The boolean form of the loader's sort comparator
`(a, b) => a.title.localeCompare(b.title)`. -/
def rowTitleLe (a b : TableRow) : Bool := localeCompare a.title b.title ≤ 0

/-- `loadRows()`: walk every list and entry, project via `toRow` with the
list's status as fallback, drop unprojectable entries, and sort by title
with default `localeCompare` (stable sort, as `Array.prototype.sort`). -/
def loadRows (collection : AnimeCollection) : List TableRow :=
  let lists := collection.lists.getD []
  let rows := lists.flatMap (fun list =>
    (list.entries.getD []).filterMap (fun entry => toRow entry list.status))
  rows.mergeSort rowTitleLe

/-! ## Episode-state enricher (`enrichRowsWithDownloadInfo`) -/

/-- One local episode file record returned by `ctx.anime.getAnimeEntry`
(`entry.episodes` elements; the iteration skips null elements). -/
structure LocalEpisode where
  isDownloaded : Bool
  progressNumber : Option ℕ
  episodeNumber : Option ℕ
deriving DecidableEq

/-- `Number(episode.progressNumber || episode.episodeNumber)`: a zero or
absent `progressNumber` (falsy) falls back to `episodeNumber`. -/
def epNumOf (e : LocalEpisode) : Option ℕ :=
  match e.progressNumber with
  | some n => if n = 0 then e.episodeNumber else some n
  | none => e.episodeNumber

/-- The set of distinct episode numbers locally marked downloaded: skips
null records and records not marked downloaded, and keeps only finite
numbers strictly greater than 0 (`Number.isFinite(epNum) && epNum > 0`). -/
def downloadedEpisodeNumbers (episodes : List (Option LocalEpisode)) : Finset ℕ :=
  episodes.foldl (fun acc e =>
    match e with
    | none => acc
    | some ep =>
      if ep.isDownloaded then
        match epNumOf ep with
        | some n => if 0 < n then insert n acc else acc
        | none => acc
      else acc) ∅

/-- `MAX_RENDERED_PILLS` in the source. -/
def MAX_RENDERED_PILLS : ℕ := 80

/-- `startEpisode`: first episode of the rendered trailing window. -/
def startEpisodeOf (maxEpisode : ℕ) : ℕ :=
  if MAX_RENDERED_PILLS < maxEpisode then maxEpisode - MAX_RENDERED_PILLS + 1 else 1

/-- `hiddenEpisodeStatusCount` as computed by the source. -/
def hiddenCountOf (maxEpisode : ℕ) : ℕ :=
  if MAX_RENDERED_PILLS < maxEpisode then maxEpisode - MAX_RENDERED_PILLS else 0

/-- The classification of one episode number inside the rendered window:
watched, else downloaded, else (when released) missing, else omitted. -/
def classifyEpisode (watchedUntil : ℕ) (downloaded : Finset ℕ)
    (latestKnown : Option ℕ) (n : ℕ) : Option EpisodeStatus :=
  if n ≤ watchedUntil then some ⟨n, .watched⟩
  else if n ∈ downloaded then some ⟨n, .downloaded⟩
  else
    match latestKnown with
    | some latest => if n ≤ latest then some ⟨n, .missing⟩ else none
    | none => none

/-- The `for` loop building `episodeStatuses` over
`startEpisode ≤ episodeNumber ≤ maxEpisode`. -/
def episodeStatusList (watchedUntil : ℕ) (downloaded : Finset ℕ)
    (latestKnown : Option ℕ) (startEpisode maxEpisode : ℕ) : List EpisodeStatus :=
  (List.range' startEpisode (maxEpisode + 1 - startEpisode)).filterMap
    (classifyEpisode watchedUntil downloaded latestKnown)

/-- `maxEpisode = Math.max(watchedUntil, latestKnown || 0,
highestDownloaded)`, with `highestDownloaded` the maximum of the
downloaded set or 0 when it is empty. -/
def maxEpisodeOf (watchedUntil : ℕ) (latestKnown : Option ℕ) (downloaded : Finset ℕ) : ℕ :=
  max (max watchedUntil (latestKnown.getD 0)) (downloaded.sup id)

/-- `downloadedUnwatched`: when `latestKnown` is a number, the count of
distinct downloaded episode numbers strictly above `watchedUntil` and at
most `latestKnown`; otherwise 0. -/
def downloadedUnwatchedOf (watchedUntil : ℕ) (downloaded : Finset ℕ)
    (latestKnown : Option ℕ) : ℕ :=
  match latestKnown with
  | some latest => (downloaded.filter (fun ep => watchedUntil < ep ∧ ep ≤ latest)).card
  | none => 0

/-- The successful enrichment body for one `CURRENT` row with known
`releasedUnwatched`, given the fetched episode records.  `watchedUntil` is
`Math.max(0, Number(row.progress) || 0)` (identity on `ℕ`);
`neededToDownload` is `Math.max(0, releasedUnwatched - downloadedUnwatched)`
(truncated subtraction on `ℕ`, with `parseInt(String(n))` the identity on
the numeric `releasedUnwatched`). -/
def computeEnrichment (row : TableRow) (released : ℕ)
    (episodes : List (Option LocalEpisode)) : TableRow :=
  let downloaded := downloadedEpisodeNumbers episodes
  let watchedUntil := row.progress
  let latestKnown := row.latestEpisode
  let maxEpisode := maxEpisodeOf watchedUntil latestKnown downloaded
  let du := downloadedUnwatchedOf watchedUntil downloaded latestKnown
  { row with
    downloadedUnwatched := some du
    neededToDownload := some (released - du)
    episodeStatuses := some (episodeStatusList watchedUntil downloaded latestKnown
      (startEpisodeOf maxEpisode) maxEpisode)
    hiddenEpisodeStatusCount := hiddenCountOf maxEpisode }

/-- The diagnostic entry pushed by the per-row `catch` handler. -/
def downloadErrorLog (mediaId : ℕ) (message : String) : String :=
  "download-info:error mediaId=" ++ toString mediaId ++ " message=" ++ message

/-- The per-row mapper of `enrichRowsWithDownloadInfo`: non-`CURRENT` rows
and rows with unknown `releasedUnwatched` pass through untouched; a failed
lookup is caught per row, logged, and leaves the row unchanged.  The
second component is the diagnostic entry the row pushed, if any. -/
def enrichRow (row : TableRow)
    (lookup : Except String (List (Option LocalEpisode))) :
    TableRow × Option String :=
  if row.status ≠ TableStatus.CURRENT then (row, none)
  else
    match row.releasedUnwatched with
    | none => (row, none)
    | some released =>
      match lookup with
      | .ok episodes => (computeEnrichment row released episodes, none)
      | .error message => (row, some (downloadErrorLog row.mediaId message))

/-- `enrichRowsWithDownloadInfo(rows)`: maps every row independently
(`Promise.all` over `rows.map`), with the local lookup keyed by the row's
`mediaId`.  Returns the enriched rows and the diagnostic entries pushed by
failing rows, in row order. -/
def enrichRowsWithDownloadInfo (rows : List TableRow)
    (fetch : ℕ → Except String (List (Option LocalEpisode))) :
    List TableRow × List String :=
  let results := rows.map (fun r => enrichRow r (fetch r.mediaId))
  (results.map Prod.fst, results.filterMap Prod.snd)

/-! ## Reconciliation controller (`refreshRows`, `loadEnrichedEpisodes`)

The controller's reactive cells are collected into one state record; the
wall-clock timestamp prefixed to each log line is not modelled, only the
message.  Each long-running operation is split into the atomic segments
delimited by its `await` boundary: a start segment (increment the shared
`refreshRunId`, capture it as the run token, set the flags) and a finish
segment (everything after the suspension, with every commit guarded by
the token-equality check exactly as in the source). -/

/-- The controller-owned reactive state. -/
structure ControllerState where
  refreshRunId : ℕ
  rows : List TableRow
  loading : Bool
  epLoading : Bool
  error : String
  debugLogs : List String
deriving DecidableEq

/-- `pushDebugLog`: append and keep only the most recent 120 entries. -/
def pushLog (s : ControllerState) (message : String) : ControllerState :=
  let next := s.debugLogs ++ [message]
  { s with debugLogs := if 120 < next.length then next.drop (next.length - 120) else next }

/-- `countStatus rows st`: one bucket of the per-category summary. -/
def countStatus (rows : List TableRow) (st : TableStatus) : ℕ :=
  rows.countP (fun r => r.status = st)

/-- The `refreshRows:success ...` summary line with per-category counts. -/
def loadSuccessLog (rows : List TableRow) : String :=
  "refreshRows:success rows=" ++ toString rows.length ++
  " current=" ++ toString (countStatus rows .CURRENT) ++
  " completed=" ++ toString (countStatus rows .COMPLETED) ++
  " paused=" ++ toString (countStatus rows .PAUSED) ++
  " dropped=" ++ toString (countStatus rows .DROPPED) ++
  " planning=" ++ toString (countStatus rows .PLANNING)

/-- First atomic segment of `refreshRows`: `const runId = ++refreshRunId`,
the start log, `loading=true`, `epLoading=false`, `error=""`.  Returns the
captured run token. -/
def loadStart (s : ControllerState) : ControllerState × ℕ :=
  let runId := s.refreshRunId + 1
  let s1 := pushLog { s with refreshRunId := runId } ("refreshRows:start")
  ({ s1 with loading := true, epLoading := false, error := "" }, runId)

/-- Second atomic segment of `refreshRows`: receives the outcome of
`loadRows()`.  Both the success/failure commits and the `finally` block
are guarded by `if (runId !== refreshRunId) return`. -/
def loadFinish (runId : ℕ) (result : Except String (List TableRow))
    (s : ControllerState) : ControllerState :=
  match result with
  | .ok loadedRows =>
    if runId ≠ s.refreshRunId then s
    else
      let s1 := { s with rows := loadedRows }
      let s2 := pushLog s1 ("refreshRows:base-loaded rows=" ++ toString loadedRows.length)
      let s3 := pushLog s2 (loadSuccessLog loadedRows)
      if runId ≠ s3.refreshRunId then s3
      else pushLog { s3 with loading := false, epLoading := false }
        ("refreshRows:end loading=false")
  | .error message =>
    if runId ≠ s.refreshRunId then s
    else
      let s1 := { s with rows := [], error := message }
      let s2 := pushLog s1 ("refreshRows:error " ++ message)
      if runId ≠ s2.refreshRunId then s2
      else pushLog { s2 with loading := false, epLoading := false }
        ("refreshRows:end loading=false")

/-- First atomic segment of `loadEnrichedEpisodes`: increments the shared
counter, captures the token, sets `epLoading=true`, `error=""`, and reads
the current row set. -/
def enrichStart (s : ControllerState) : ControllerState × ℕ :=
  let runId := s.refreshRunId + 1
  let s1 := pushLog { s with refreshRunId := runId } ("loadEnrichedEpisodes:start")
  ({ s1 with epLoading := true, error := "" }, runId)

/-- Second atomic segment of `loadEnrichedEpisodes`: the per-row
diagnostic entries were pushed while the lookups ran (unguarded), then
every state commit and the `finally` block are token-guarded. -/
def enrichFinish (runId : ℕ)
    (result : Except String (List TableRow × List String))
    (s : ControllerState) : ControllerState :=
  match result with
  | .ok (enriched, perRowLogs) =>
    let s0 := perRowLogs.foldl pushLog s
    if runId ≠ s0.refreshRunId then s0
    else
      let s1 := { s0 with rows := enriched }
      let s2 := pushLog s1 ("loadEnrichedEpisodes:success rows=" ++ toString enriched.length)
      if runId ≠ s2.refreshRunId then s2
      else { s2 with epLoading := false }
  | .error message =>
    if runId ≠ s.refreshRunId then s
    else
      let s1 := { s with error := message }
      let s2 := pushLog s1 ("loadEnrichedEpisodes:error " ++ message)
      if runId ≠ s2.refreshRunId then s2
      else { s2 with epLoading := false }

/-- One uninterrupted run of `loadEnrichedEpisodes` over the current row
set: the per-row mapper catches its own failures, so the awaited
enrichment always resolves successfully. -/
def runEnrich (s : ControllerState)
    (fetch : ℕ → Except String (List (Option LocalEpisode))) : ControllerState :=
  let p := enrichStart s
  enrichFinish p.2 (.ok (enrichRowsWithDownloadInfo p.1.rows fetch)) p.1

/-! ## View query engine: sort comparator -/

/-- The sortable column keys of the table view. -/
inductive SortKey where
  | title
  | watched
  | total
  | score
  | progress
  | unwatched
  | format
deriving DecidableEq

/-- `compareNullableNumber(a, b)`: null (non-finite/absent) values compare
after present values; equal values compare 0. -/
def compareNullableNumber : Option ℚ → Option ℚ → ℤ
  | none, none => 0
  | none, some _ => 1
  | some _, none => -1
  | some a, some b => if a = b then 0 else if b < a then 1 else -1

/-- `compareText(a, b)`: base-sensitivity locale comparison. -/
def compareText (a b : String) : ℤ := localeCompareBase a b

/-- `progressSortValue(row)`: watched/total ratio, or null when the total
is unknown or zero. -/
def progressSortValue (row : TableRow) : Option ℚ :=
  match row.totalEpisodes with
  | some total => if 0 < total then some ((row.progress : ℚ) / (total : ℚ)) else none
  | none => none

/-- Lift an optional episode count into the comparator's number domain. -/
def natOptToRat (o : Option ℕ) : Option ℚ := o.map (fun n => (n : ℚ))

/-- The keyed comparison inside the `sortedRows` comparator, before the
title fallback and the direction multiplication. -/
def rowCompareBase (key : SortKey) (a b : TableRow) : ℤ :=
  match key with
  | .title => compareText a.title b.title
  | .watched => compareNullableNumber (some (a.progress : ℚ)) (some (b.progress : ℚ))
  | .total => compareNullableNumber (natOptToRat a.totalEpisodes) (natOptToRat b.totalEpisodes)
  | .score => compareNullableNumber a.score b.score
  | .progress =>
    let r := compareNullableNumber (progressSortValue a) (progressSortValue b)
    if r = 0
    then compareNullableNumber (some (a.progress : ℚ)) (some (b.progress : ℚ))
    else r
  | .unwatched =>
    compareNullableNumber (natOptToRat a.downloadedUnwatched) (natOptToRat b.downloadedUnwatched)
  | .format => compareText a.format b.format

/-- `direction` in `sortedRows`: 1 for ascending, -1 for descending. -/
def sortDirection (dirAsc : Bool) : ℤ := if dirAsc then 1 else -1

/-- The full `sortedRows` comparator: keyed comparison, title fallback on
a tie, and the whole result multiplied by the direction. -/
def rowComparator (key : SortKey) (dirAsc : Bool) (a b : TableRow) : ℤ :=
  let result := rowCompareBase key a b
  let result := if result = 0 then compareText a.title b.title else result
  result * sortDirection dirAsc

/-- The numeric sort value carried by a row for each numeric sort key. -/
def numericSortValue : SortKey → TableRow → Option ℚ
  | .watched, r => some (r.progress : ℚ)
  | .total, r => natOptToRat r.totalEpisodes
  | .score, r => r.score
  | .progress, r => progressSortValue r
  | .unwatched, r => natOptToRat r.downloadedUnwatched
  | _, _ => none

/-- The numeric sort keys. -/
def IsNumericKey (key : SortKey) : Prop :=
  key = .watched ∨ key = .total ∨ key = .score ∨ key = .progress ∨ key = .unwatched

/-! ## View query engine: virtualization window -/

/-- `VIRTUALIZE_AFTER_ROWS` in the source. -/
def VIRTUALIZE_AFTER_ROWS : ℕ := 120

/-- `OVERSCAN_ROWS` in the source. -/
def OVERSCAN_ROWS : ℕ := 10

/-- `Math.ceil(a / b)` on naturals (`b > 0` in every call site). -/
def ceilDiv (a b : ℕ) : ℕ := (a + b - 1) / b

/-- The virtualization outcome: the half-open materialized index window
and the two spacer heights. -/
structure VirtualWindow where
  start : ℕ
  stop : ℕ
  topSpacerHeight : ℕ
  bottomSpacerHeight : ℕ
deriving DecidableEq

/-- The virtualization computation of the table body: `virtualStartRaw =
max(0, floor(scrollTop / rowHeight) - OVERSCAN_ROWS)` clamped to the last
row index, a window of `max(1, ceil(viewportHeight / rowHeight) +
2 * OVERSCAN_ROWS)` rows clamped to the row count, and spacers sized by
the skipped rows (truncated subtraction models the `Math.max(0, ...)`
clamps). -/
def virtualize (rowCount rowHeight scrollTop viewportHeight : ℕ) : VirtualWindow :=
  if rowCount ≤ VIRTUALIZE_AFTER_ROWS then ⟨0, rowCount, 0, 0⟩
  else
    let virtualStartRaw := scrollTop / rowHeight - OVERSCAN_ROWS
    let maxStartIndex := rowCount - 1
    let virtualStart := min maxStartIndex virtualStartRaw
    let visibleCount := max 1 (ceilDiv viewportHeight rowHeight + 2 * OVERSCAN_ROWS)
    let virtualEnd := min rowCount (virtualStart + visibleCount)
    ⟨virtualStart, virtualEnd, virtualStart * rowHeight, (rowCount - virtualEnd) * rowHeight⟩

/-- The materialized index window exactly as the spec's words describe it:
`[scrollRow - overscan, scrollRow + visible + overscan)` clamped to the
row-set bounds, with `scrollRow = floor(scrollTop / rowHeight)` and
`visible = ceil(viewportHeight / rowHeight)`.  Used only to compare the
spec's formula against the code's window. -/
def specWindow (rowCount rowHeight scrollTop viewportHeight : ℕ) : ℕ × ℕ :=
  let scrollRow := scrollTop / rowHeight
  let visible := ceilDiv viewportHeight rowHeight
  (scrollRow - OVERSCAN_ROWS, min rowCount (scrollRow + visible + OVERSCAN_ROWS))

/-! ## Theorems -/

/-- C6: the status normalizer trims and upper-cases the raw token before
dispatch; `CURRENT` and `REPEATING` both map to `CURRENT`; `COMPLETED`,
`PAUSED`, `DROPPED`, `PLANNING` map to themselves; any other non-empty
token maps to `CURRENT`; an absent or empty token yields no status.  In
particular the tokens "current", " Current ", "REPEATING", "completed",
"", "garbage" yield CURRENT, CURRENT, CURRENT, COMPLETED, no status,
CURRENT respectively. -/
theorem c6_status_normalizer :
    normalizeStatus (some ("current")) = some TableStatus.CURRENT ∧
    normalizeStatus (some (" Current ")) = some TableStatus.CURRENT ∧
    normalizeStatus (some ("REPEATING")) = some TableStatus.CURRENT ∧
    normalizeStatus (some ("completed")) = some TableStatus.COMPLETED ∧
    normalizeStatus (some ("")) = none ∧
    normalizeStatus (some ("garbage")) = some TableStatus.CURRENT ∧
    normalizeStatus none = none ∧
    statusSwitch ("CURRENT") = TableStatus.CURRENT ∧
    statusSwitch ("REPEATING") = TableStatus.CURRENT ∧
    statusSwitch ("COMPLETED") = TableStatus.COMPLETED ∧
    statusSwitch ("PAUSED") = TableStatus.PAUSED ∧
    statusSwitch ("DROPPED") = TableStatus.DROPPED ∧
    statusSwitch ("PLANNING") = TableStatus.PLANNING ∧
    (∀ s : String, s ≠ "" →
      normalizeStatus (some s) = some (statusSwitch (jsToUpper (jsTrim s)))) := by
  refine ⟨by decide, by decide, by decide, by decide, by decide, by decide,
    rfl, by decide, by decide, by decide, by decide, by decide, by decide, ?_⟩
  intro s hs
  simp [normalizeStatus, hs]

/-- C6 witness: the general trim-and-uppercase conjunct instantiated at
the concrete token " Current ". -/
theorem c6_status_normalizer_witness :
    normalizeStatus (some (" Current ")) =
      some (statusSwitch (jsToUpper (jsTrim (" Current ")))) :=
  (c6_status_normalizer.2.2.2.2.2.2.2.2.2.2.2.2.2) (" Current ") (by decide)

/-- C10: a non-empty token consisting only of whitespace is truthy, so it
passes the emptiness check before being trimmed, trims to the empty
string, and falls through the switch to `CURRENT`; the normalizer returns
no status exactly for the absent token and the empty string. -/
theorem c10_whitespace_token_yields_current :
    (∀ s : String, s ≠ "" → (∀ c ∈ s.data, isJsWhitespace c) →
      normalizeStatus (some s) = some TableStatus.CURRENT) ∧
    (∀ t : Option String, normalizeStatus t = none ↔ (t = none ∨ t = some "")) := by
  constructor
  · intro s hs hws
    have htrim : jsTrim s = "" := by
      have h1 : s.data.dropWhile isJsWhitespace = [] :=
        List.dropWhile_eq_nil_iff.mpr (fun x hx => hws x hx)

      simp [jsTrim, jsTrimList, h1]
    simp [normalizeStatus, hs, htrim]
    decide
  · intro t
    match t with
    | none => simp [normalizeStatus]
    | some s =>
      by_cases hs : s = ""
      · subst hs; simp [normalizeStatus]
      · simp [normalizeStatus, hs]

/-- C10 witness: the single-space token is classified `CURRENT`, and the
empty token yields no status. -/
theorem c10_whitespace_token_witness :
    normalizeStatus (some (" ")) = some TableStatus.CURRENT ∧
    (normalizeStatus (some ("")) = none ↔
      ((some "" : Option String) = none ∨ (some "" : Option String) = some "")) :=
  ⟨c10_whitespace_token_yields_current.1 (" ") (by decide) (by decide),
    c10_whitespace_token_yields_current.2 (some "")⟩

/-- Bounds for the rounded-to-one-decimal value: if the pre-rounding
value `t` lies in `[0, 100]` then `round(t) / 10` lies in `[0, 10]`. -/
theorem jsRound_div_ten_bounds (t : ℚ) (h0 : 0 ≤ t) (h1 : t ≤ 100) :
    0 ≤ (jsRound t : ℚ) / 10 ∧ (jsRound t : ℚ) / 10 ≤ 10 := by
  have hlow : 0 ≤ jsRound t := Int.floor_nonneg.mpr (by linarith)
  have hhigh : jsRound t ≤ 100 := by
    have hk : ⌊t + 1/2⌋ ≤ ⌊(100 : ℚ) + 1/2⌋ := Int.floor_le_floor (by linarith)
    have hv : ⌊(100 : ℚ) + 1/2⌋ = 100 := by
      rw [Int.floor_eq_iff]
      norm_num
    rw [jsRound]
    omega
  constructor
  · have : (0 : ℚ) ≤ (jsRound t : ℚ) := by exact_mod_cast hlow
    linarith
  · have : (jsRound t : ℚ) ≤ 100 := by exact_mod_cast hhigh
    linarith

/-- C7 counterexample: the raw score 200 is neither absent nor 0, yet the
normalizer maps it to 20, outside `[0, 10]` — the claim's "every other raw
value to a value in [0,10]" fails because the 0-100 rescale divides by 10
only once. -/
theorem c7_score_counterexample :
    normalizeScoreToTen (some 200) = some 20 ∧ ¬ ((20 : ℚ) ≤ 10) := by
  constructor
  · norm_num [normalizeScoreToTen, jsRound]
  · norm_num

/-- C7 (amended): an absent or 0 upstream score maps to unknown; every
other raw value in the upstream range `[0, 100]` maps to a value in
`[0, 10]` (divided by 10 when above 10, then rounded to one decimal);
85 normalizes to 8.5 and 7 normalizes to 7.  (Raw values above 100 map
above 10, see the counterexample.) -/
theorem c7_score_normalization_amended :
    (∀ q : ℚ, 0 ≤ q → q ≤ 100 → q ≠ 0 →
      ∃ r : ℚ, normalizeScoreToTen (some q) = some r ∧ 0 ≤ r ∧ r ≤ 10) ∧
    normalizeScoreToTen (some 85) = some (17/2) ∧
    normalizeScoreToTen (some 7) = some 7 ∧
    normalizeScoreToTen (some 0) = none ∧
    normalizeScoreToTen none = none := by
  refine ⟨?_, ?_, ?_, by norm_num [normalizeScoreToTen], rfl⟩
  · intro q h0 h100 hq
    simp only [normalizeScoreToTen, if_neg hq]
    by_cases h10 : 10 < q
    · simp only [if_pos h10]
      rw [show q / 10 * 10 = q by field_simp]
      exact ⟨_, rfl, jsRound_div_ten_bounds q h0 h100⟩
    · simp only [if_neg h10]
      push_neg at h10
      exact ⟨_, rfl, jsRound_div_ten_bounds (q * 10) (by linarith) (by linarith)⟩
  · norm_num [normalizeScoreToTen, jsRound]
  · norm_num [normalizeScoreToTen, jsRound]

/-- C7 witness: the amended range statement instantiated at the raw
score 50. -/
theorem c7_score_witness :
    ∃ r : ℚ, normalizeScoreToTen (some 50) = some r ∧ 0 ≤ r ∧ r ≤ 10 :=
  c7_score_normalization_amended.1 50 (by decide) (by decide) (by decide)

/-- C8 counterexample: with 121 rows (> 120), row height 62, scroll at the
top and a viewport of 620px (10 row-heights), the code materializes rows
`[0, 30)` — it clamps the window start and keeps the window size
`visible + 2 * overscan` — while the claim's formula
`[scrollRow - overscan, scrollRow + visible + overscan)` clamped to
bounds gives `[0, 20)`. -/
theorem c8_virtualization_counterexample :
    (virtualize 121 62 0 620).start = 0 ∧
    (virtualize 121 62 0 620).stop = 30 ∧
    specWindow 121 62 0 620 = (0, 20) ∧
    (30 : ℕ) ≠ 20 := by
  refine ⟨by decide, by decide, by decide, by decide⟩

/-- C8 (amended): when the filtered+sorted set exceeds 120 rows, the
materialized window is `[s, min(rowCount, s + max(1, visible +
2*overscan)))` with `s = min(rowCount - 1, max(0, scrollRow - overscan))`;
this coincides with the claim's `[scrollRow - overscan, scrollRow +
visible + overscan)` whenever neither bound clamps; and the top spacer
plus the materialized rows' heights plus the bottom spacer always equal
`rowCount * rowHeight`. -/
theorem c8_virtualization_amended (rowCount rowHeight scrollTop viewportHeight : ℕ)
    (hn : VIRTUALIZE_AFTER_ROWS < rowCount) :
    (virtualize rowCount rowHeight scrollTop viewportHeight).start =
      min (rowCount - 1) (scrollTop / rowHeight - OVERSCAN_ROWS) ∧
    (virtualize rowCount rowHeight scrollTop viewportHeight).stop =
      min rowCount
        ((virtualize rowCount rowHeight scrollTop viewportHeight).start +
          max 1 (ceilDiv viewportHeight rowHeight + 2 * OVERSCAN_ROWS)) ∧
    (OVERSCAN_ROWS ≤ scrollTop / rowHeight →
      scrollTop / rowHeight + ceilDiv viewportHeight rowHeight + OVERSCAN_ROWS ≤ rowCount →
      (virtualize rowCount rowHeight scrollTop viewportHeight).start =
          scrollTop / rowHeight - OVERSCAN_ROWS ∧
        (virtualize rowCount rowHeight scrollTop viewportHeight).stop =
          scrollTop / rowHeight + ceilDiv viewportHeight rowHeight + OVERSCAN_ROWS) ∧
    (virtualize rowCount rowHeight scrollTop viewportHeight).topSpacerHeight +
        ((virtualize rowCount rowHeight scrollTop viewportHeight).stop -
          (virtualize rowCount rowHeight scrollTop viewportHeight).start) * rowHeight +
        (virtualize rowCount rowHeight scrollTop viewportHeight).bottomSpacerHeight =
      rowCount * rowHeight := by
  have hgt : ¬ rowCount ≤ VIRTUALIZE_AFTER_ROWS := by omega
  simp only [virtualize, if_neg hgt]
  set scrollRow := scrollTop / rowHeight with hsr
  set visible := ceilDiv viewportHeight rowHeight with hvis
  refine ⟨trivial, trivial, ?_, ?_⟩
  · intro h1 h2
    constructor
    · simp only [VIRTUALIZE_AFTER_ROWS, OVERSCAN_ROWS] at *
      omega
    · simp only [VIRTUALIZE_AFTER_ROWS, OVERSCAN_ROWS] at *
      omega
  · set s := min (rowCount - 1) (scrollRow - OVERSCAN_ROWS) with hs
    set e := min rowCount (s + max 1 (visible + 2 * OVERSCAN_ROWS)) with he
    have hse : s ≤ e := by
      simp only [VIRTUALIZE_AFTER_ROWS] at hn
      omega
    have hec : e ≤ rowCount := min_le_left _ _
    have h1 : (e - s) * rowHeight = e * rowHeight - s * rowHeight := Nat.sub_mul e s rowHeight
    have h2 : (rowCount - e) * rowHeight = rowCount * rowHeight - e * rowHeight :=
      Nat.sub_mul rowCount e rowHeight
    have h3 : s * rowHeight ≤ e * rowHeight := Nat.mul_le_mul_right rowHeight hse
    have h4 : e * rowHeight ≤ rowCount * rowHeight := Nat.mul_le_mul_right rowHeight hec
    omega

/-- C8 witness: the spec's own scenario — 500 rows, row height 62 (episode
column hidden), viewport of 10 row-heights (620px), scrolled to row 200
(12400px): the window is exactly `[190, 220)` and the spacers and rows sum
to `500 * 62`. -/
theorem c8_virtualization_witness :
    (virtualize 500 62 12400 620).start = min (500 - 1) (12400 / 62 - OVERSCAN_ROWS) ∧
    (virtualize 500 62 12400 620).stop =
      min 500
        ((virtualize 500 62 12400 620).start +
          max 1 (ceilDiv 620 62 + 2 * OVERSCAN_ROWS)) ∧
    (OVERSCAN_ROWS ≤ 12400 / 62 →
      12400 / 62 + ceilDiv 620 62 + OVERSCAN_ROWS ≤ 500 →
      (virtualize 500 62 12400 620).start = 12400 / 62 - OVERSCAN_ROWS ∧
        (virtualize 500 62 12400 620).stop =
          12400 / 62 + ceilDiv 620 62 + OVERSCAN_ROWS) ∧
    (virtualize 500 62 12400 620).topSpacerHeight +
        ((virtualize 500 62 12400 620).stop - (virtualize 500 62 12400 620).start) * 62 +
        (virtualize 500 62 12400 620).bottomSpacerHeight =
      500 * 62 :=
  c8_virtualization_amended 500 62 12400 620 (by decide)

/-- A row with no score, for exercising the sort comparator. -/
def c4RowMissingScore : TableRow :=
  { entryId := 1, mediaId := 1, title := "A", coverImage := "", progress := 0,
    latestEpisode := none, totalEpisodes := none, releasedUnwatched := none,
    downloadedUnwatched := none, neededToDownload := none, episodeStatuses := none,
    hiddenEpisodeStatusCount := 0, score := none, status := TableStatus.CURRENT,
    format := "TV", siteUrl := "" }

/-- A row with score 5, for exercising the sort comparator. -/
def c4RowKnownScore : TableRow :=
  { entryId := 2, mediaId := 2, title := "B", coverImage := "", progress := 0,
    latestEpisode := none, totalEpisodes := none, releasedUnwatched := none,
    downloadedUnwatched := none, neededToDownload := none, episodeStatuses := none,
    hiddenEpisodeStatusCount := 0, score := some 5, status := TableStatus.CURRENT,
    format := "TV", siteUrl := "" }

/-- C4 counterexample: sorting by score in descending direction, the
comparator multiplies the whole result — including the missing-value
placement — by -1, so a row with a missing score compares *before* a row
with a known score, contradicting "missing values order after known values
for both sort directions". -/
theorem c4_sort_missing_counterexample :
    numericSortValue SortKey.score c4RowMissingScore = none ∧
    numericSortValue SortKey.score c4RowKnownScore = some 5 ∧
    rowComparator SortKey.score false c4RowMissingScore c4RowKnownScore = -1 ∧
    ¬ (0 < rowComparator SortKey.score false c4RowMissingScore c4RowKnownScore) := by
  refine ⟨by decide, by decide, by decide, by decide⟩

/-- C4 (amended): for every numeric sort key, a row with a missing sort
value compares after a row with a known value in ascending direction
(comparator 1), and — because the direction multiplies the entire
result — *before* it in descending direction (comparator -1); whenever the
keyed comparison (including the progress key's secondary numeric
tiebreak) is 0, the comparator falls back to title comparison, likewise
multiplied by the direction. -/
theorem c4_sort_missing_amended (key : SortKey) (a b : TableRow) :
    (IsNumericKey key → numericSortValue key a = none → numericSortValue key b ≠ none →
      rowComparator key true a b = 1 ∧ rowComparator key false a b = -1) ∧
    (rowCompareBase key a b = 0 →
      rowComparator key true a b = compareText a.title b.title ∧
      rowComparator key false a b = -(compareText a.title b.title)) := by
  constructor
  · intro hk ha hb
    obtain ⟨x, hx⟩ := Option.ne_none_iff_exists'.mp hb
    have hbase : rowCompareBase key a b = 1 := by
      cases key with
      | title => simp [IsNumericKey] at hk
      | format => simp [IsNumericKey] at hk
      | watched => simp [numericSortValue] at ha
      | total =>
        simp only [numericSortValue] at ha hx
        simp [rowCompareBase, ha, hx, compareNullableNumber]
      | score =>
        simp only [numericSortValue] at ha hx
        simp [rowCompareBase, ha, hx, compareNullableNumber]
      | progress =>
        simp only [numericSortValue] at ha hx
        simp [rowCompareBase, ha, hx, compareNullableNumber]
      | unwatched =>
        simp only [numericSortValue] at ha hx
        simp [rowCompareBase, ha, hx, compareNullableNumber]
    refine ⟨?_, ?_⟩ <;> simp [rowComparator, hbase, sortDirection]
  · intro h
    refine ⟨?_, ?_⟩ <;> simp [rowComparator, h, sortDirection]

/-- C4 witness: the amended missing-value placement instantiated at the
score key and the two concrete rows above. -/
theorem c4_sort_missing_witness :
    rowComparator SortKey.score true c4RowMissingScore c4RowKnownScore = 1 ∧
    rowComparator SortKey.score false c4RowMissingScore c4RowKnownScore = -1 :=
  (c4_sort_missing_amended SortKey.score c4RowMissingScore c4RowKnownScore).1
    (Or.inr (Or.inr (Or.inl rfl))) (by decide) (by decide)

/-- C1: for every enriched CURRENT row, `downloadedUnwatched` is the count
of distinct downloaded episode numbers strictly greater than
`watchedUntil` and at most `latestEpisode` when `latestEpisode` is known,
and 0 when it is unknown; and `neededToDownload = max(0, releasedUnwatched
- downloadedUnwatched)`. -/
theorem c1_enrichment_counts (row : TableRow) (released : ℕ)
    (episodes : List (Option LocalEpisode))
    (hs : row.status = TableStatus.CURRENT)
    (hr : row.releasedUnwatched = some released) :
    ∃ du needed : ℕ,
      (enrichRow row (.ok episodes)).1.downloadedUnwatched = some du ∧
      (enrichRow row (.ok episodes)).1.neededToDownload = some needed ∧
      (match row.latestEpisode with
       | some latest =>
         du = ((downloadedEpisodeNumbers episodes).filter
           (fun ep => row.progress < ep ∧ ep ≤ latest)).card
       | none => du = 0) ∧
      (needed : ℤ) = max 0 ((released : ℤ) - (du : ℤ)) := by
  have hne : ¬ (row.status ≠ TableStatus.CURRENT) := by simp [hs]
  refine ⟨downloadedUnwatchedOf row.progress (downloadedEpisodeNumbers episodes)
      row.latestEpisode,
    released - downloadedUnwatchedOf row.progress (downloadedEpisodeNumbers episodes)
      row.latestEpisode, ?_, ?_, ?_, ?_⟩
  · simp [enrichRow, hne, hr, computeEnrichment]
  · simp [enrichRow, hne, hr, computeEnrichment]
  · cases hl : row.latestEpisode with
    | some latest => simp [downloadedUnwatchedOf, hl]
    | none => simp [downloadedUnwatchedOf, hl]
  · omega

/-- The spec's own enrichment scenario row: `progress = 5`, a known
`latestEpisode = 9` (from `nextAiringEpisode = 10`), `releasedUnwatched =
4`, in the CURRENT category. -/
def c1Row : TableRow :=
  { entryId := 10, mediaId := 10, title := "S", coverImage := "", progress := 5,
    latestEpisode := some 9, totalEpisodes := some 12, releasedUnwatched := some 4,
    downloadedUnwatched := none, neededToDownload := none, episodeStatuses := none,
    hiddenEpisodeStatusCount := 0, score := none, status := TableStatus.CURRENT,
    format := "TV", siteUrl := "" }

/-- Local episode records with episodes 6, 7 and 9 downloaded. -/
def c1Episodes : List (Option LocalEpisode) :=
  [some ⟨true, some 6, some 6⟩, some ⟨true, some 7, some 7⟩, some ⟨true, some 9, some 9⟩]

/-- C1 witness: the spec scenario — downloaded set {6,7,9}, watched until
5, released up to 9 — has `downloadedUnwatched = 3` and `neededToDownload
= max(0, 4 - 3) = 1`. -/
theorem c1_enrichment_counts_witness :
    (∃ du needed : ℕ,
      (enrichRow c1Row (.ok c1Episodes)).1.downloadedUnwatched = some du ∧
      (enrichRow c1Row (.ok c1Episodes)).1.neededToDownload = some needed ∧
      (match c1Row.latestEpisode with
       | some latest =>
         du = ((downloadedEpisodeNumbers c1Episodes).filter
           (fun ep => c1Row.progress < ep ∧ ep ≤ latest)).card
       | none => du = 0) ∧
      (needed : ℤ) = max 0 ((4 : ℤ) - (du : ℤ))) ∧
    (enrichRow c1Row (.ok c1Episodes)).1.downloadedUnwatched = some 3 ∧
    (enrichRow c1Row (.ok c1Episodes)).1.neededToDownload = some 1 :=
  ⟨c1_enrichment_counts c1Row 4 c1Episodes rfl rfl, by decide, by decide⟩

/-- The episode-state classifier tags each episode with its own number. -/
theorem classifyEpisode_episode (w : ℕ) (d : Finset ℕ) (lk : Option ℕ) (n : ℕ)
    (es : EpisodeStatus) (h : classifyEpisode w d lk n = some es) : es.episode = n := by
  unfold classifyEpisode at h
  split_ifs at h
  · cases h; rfl
  · cases h; rfl
  · cases lk with
    | none => simp at h
    | some latest =>
      simp only at h
      split_ifs at h
      cases h; rfl

/-- Every element of the rendered episode-state timeline lies in the
window `[startEpisode, maxEpisode]`. -/
theorem mem_episodeStatusList (w : ℕ) (d : Finset ℕ) (lk : Option ℕ) (s m : ℕ)
    (es : EpisodeStatus) (h : es ∈ episodeStatusList w d lk s m) :
    s ≤ es.episode ∧ es.episode ≤ m := by
  unfold episodeStatusList at h
  obtain ⟨n, hn, hc⟩ := List.mem_filterMap.mp h
  have hep := classifyEpisode_episode w d lk n es hc
  have hr := List.mem_range'_1.mp hn
  omega

/-- The rendered episode-state timeline never exceeds the window size. -/
theorem episodeStatusList_length_le (w : ℕ) (d : Finset ℕ) (lk : Option ℕ) (s m : ℕ) :
    (episodeStatusList w d lk s m).length ≤ m + 1 - s := by
  unfold episodeStatusList
  calc (List.filterMap (classifyEpisode w d lk) (List.range' s (m + 1 - s))).length
      ≤ (List.range' s (m + 1 - s)).length := List.length_filterMap_le _ _
    _ = m + 1 - s := List.length_range' ..

/-- A CURRENT row with 100 released episodes, nothing watched and nothing
downloaded, for exercising the timeline window. -/
def c2Row : TableRow :=
  { entryId := 20, mediaId := 20, title := "W", coverImage := "", progress := 0,
    latestEpisode := some 100, totalEpisodes := some 100, releasedUnwatched := some 100,
    downloadedUnwatched := none, neededToDownload := none, episodeStatuses := none,
    hiddenEpisodeStatusCount := 0, score := none, status := TableStatus.CURRENT,
    format := "TV", siteUrl := "" }

/-- C2 counterexample: with `maxEpisode = 100` the window start is 21 and
the code sets `hiddenEpisodeStatusCount = maxEpisode - 80 = 20`, which is
`windowStart - 1`, not the claim's `maxEpisode - windowStart = 79`. -/
theorem c2_window_counterexample :
    (enrichRow c2Row (.ok [])).1.hiddenEpisodeStatusCount = 20 ∧
    startEpisodeOf 100 = 21 ∧
    (∃ l, (enrichRow c2Row (.ok [])).1.episodeStatuses = some l ∧
      l.head? = some ⟨21, EpisodeState.missing⟩ ∧ l.length = 80) ∧
    (20 : ℕ) ≠ 100 - 21 := by
  refine ⟨by decide, by decide, ⟨episodeStatusList 0 (downloadedEpisodeNumbers [])
    (some 100) 21 100, by decide, by decide, by decide⟩, by decide⟩

/-- C2 (amended): the episode-state timeline is built only for a bounded
trailing window of at most 80 episodes ending at `maxEpisode`, and
episodes below the window start are summarized by
`hiddenEpisodeStatusCount = windowStart - 1` — that is, `maxEpisode - 80`
when `maxEpisode` exceeds the 80-episode bound and 0 otherwise. -/
theorem c2_window_amended (row : TableRow) (released : ℕ)
    (episodes : List (Option LocalEpisode))
    (hs : row.status = TableStatus.CURRENT)
    (hr : row.releasedUnwatched = some released) :
    (enrichRow row (.ok episodes)).1.hiddenEpisodeStatusCount =
      startEpisodeOf (maxEpisodeOf row.progress row.latestEpisode
        (downloadedEpisodeNumbers episodes)) - 1 ∧
    (enrichRow row (.ok episodes)).1.hiddenEpisodeStatusCount =
      (if MAX_RENDERED_PILLS < maxEpisodeOf row.progress row.latestEpisode
          (downloadedEpisodeNumbers episodes)
       then maxEpisodeOf row.progress row.latestEpisode
          (downloadedEpisodeNumbers episodes) - MAX_RENDERED_PILLS
       else 0) ∧
    (∃ l, (enrichRow row (.ok episodes)).1.episodeStatuses = some l ∧
      l.length ≤ MAX_RENDERED_PILLS ∧
      ∀ es ∈ l,
        startEpisodeOf (maxEpisodeOf row.progress row.latestEpisode
          (downloadedEpisodeNumbers episodes)) ≤ es.episode ∧
        es.episode ≤ maxEpisodeOf row.progress row.latestEpisode
          (downloadedEpisodeNumbers episodes)) := by
  have hne : ¬ (row.status ≠ TableStatus.CURRENT) := by simp [hs]
  set m := maxEpisodeOf row.progress row.latestEpisode (downloadedEpisodeNumbers episodes)
    with hm
  refine ⟨?_, ?_, ?_⟩
  · simp only [enrichRow, if_neg hne, hr, computeEnrichment, ← hm]
    simp only [hiddenCountOf, startEpisodeOf, MAX_RENDERED_PILLS]
    split_ifs <;> omega
  · simp only [enrichRow, if_neg hne, hr, computeEnrichment, ← hm]
    simp only [hiddenCountOf]
  · refine ⟨episodeStatusList row.progress (downloadedEpisodeNumbers episodes)
      row.latestEpisode (startEpisodeOf m) m, ?_, ?_, ?_⟩
    · simp only [enrichRow, if_neg hne, hr, computeEnrichment, ← hm]
    · have hlen := episodeStatusList_length_le row.progress
        (downloadedEpisodeNumbers episodes) row.latestEpisode (startEpisodeOf m) m
      have : m + 1 - startEpisodeOf m ≤ MAX_RENDERED_PILLS := by
        simp only [startEpisodeOf, MAX_RENDERED_PILLS] at *
        split_ifs <;> omega
      omega
    · intro es hes
      exact mem_episodeStatusList _ _ _ _ _ es hes

/-- C2 witness: the amended window law instantiated at the concrete
100-episode row: `hiddenEpisodeStatusCount = 20 = windowStart - 1`. -/
theorem c2_window_witness :
    (enrichRow c2Row (.ok [])).1.hiddenEpisodeStatusCount =
      startEpisodeOf (maxEpisodeOf c2Row.progress c2Row.latestEpisode
        (downloadedEpisodeNumbers [])) - 1 ∧
    (enrichRow c2Row (.ok [])).1.hiddenEpisodeStatusCount =
      (if MAX_RENDERED_PILLS < maxEpisodeOf c2Row.progress c2Row.latestEpisode
          (downloadedEpisodeNumbers [])
       then maxEpisodeOf c2Row.progress c2Row.latestEpisode
          (downloadedEpisodeNumbers []) - MAX_RENDERED_PILLS
       else 0) ∧
    (∃ l, (enrichRow c2Row (.ok [])).1.episodeStatuses = some l ∧
      l.length ≤ MAX_RENDERED_PILLS ∧
      ∀ es ∈ l,
        startEpisodeOf (maxEpisodeOf c2Row.progress c2Row.latestEpisode
          (downloadedEpisodeNumbers [])) ≤ es.episode ∧
        es.episode ≤ maxEpisodeOf c2Row.progress c2Row.latestEpisode
          (downloadedEpisodeNumbers [])) :=
  c2_window_amended c2Row 100 [] rfl rfl

/-- Appending a diagnostic entry leaves the run counter untouched. -/
theorem pushLog_refreshRunId (s : ControllerState) (m : String) :
    (pushLog s m).refreshRunId = s.refreshRunId := rfl

/-- The finish segment of `load` never changes the run counter. -/
theorem loadFinish_refreshRunId (t : ℕ) (r : Except String (List TableRow))
    (s : ControllerState) : (loadFinish t r s).refreshRunId = s.refreshRunId := by
  cases r with
  | ok rows =>
    simp only [loadFinish]
    split_ifs <;> rfl
  | error msg =>
    simp only [loadFinish]
    split_ifs <;> rfl

/-- A load whose token no longer matches the shared counter commits
nothing at all: not rows, not the error, not the loading flags, not even
a diagnostic entry. -/
theorem loadFinish_stale (t : ℕ) (r : Except String (List TableRow))
    (s : ControllerState) (h : t ≠ s.refreshRunId) : loadFinish t r s = s := by
  cases r with
  | ok rows => simp [loadFinish, h]
  | error msg => simp [loadFinish, h]

/-- A load whose token is still current commits its own outcome's rows:
the loaded rows on success, the empty row set on failure. -/
theorem loadFinish_rows_current (t : ℕ) (r : Except String (List TableRow))
    (s : ControllerState) (h : t = s.refreshRunId) :
    (loadFinish t r s).rows = (match r with | .ok rs => rs | .error _ => []) := by
  subst h
  cases r with
  | ok rows => simp [loadFinish, pushLog]
  | error msg => simp [loadFinish, pushLog]

/-- The start segment of `load` increments the shared counter and captures
it as the run token. -/
theorem loadStart_token (s : ControllerState) :
    (loadStart s).2 = s.refreshRunId + 1 ∧
    (loadStart s).1.refreshRunId = s.refreshRunId + 1 :=
  ⟨rfl, rfl⟩

/-- C3: triggering `load` twice before the first completes, the stale
first invocation's finish segment is a complete no-op (no partial
application of stale data) under either completion order, so the final
state is exactly the one committed by the second invocation, whose rows
are the second result's rows (or the cleared row set on failure). -/
theorem c3_stale_load_discard (s0 : ControllerState)
    (r1 r2 : Except String (List TableRow)) :
    loadFinish (loadStart (loadStart s0).1).2 r2
        (loadFinish (loadStart s0).2 r1 (loadStart (loadStart s0).1).1) =
      loadFinish (loadStart (loadStart s0).1).2 r2 (loadStart (loadStart s0).1).1 ∧
    loadFinish (loadStart s0).2 r1
        (loadFinish (loadStart (loadStart s0).1).2 r2 (loadStart (loadStart s0).1).1) =
      loadFinish (loadStart (loadStart s0).1).2 r2 (loadStart (loadStart s0).1).1 ∧
    (loadFinish (loadStart (loadStart s0).1).2 r2 (loadStart (loadStart s0).1).1).rows =
      (match r2 with | .ok rs => rs | .error _ => []) := by
  have ht1 : (loadStart s0).2 = s0.refreshRunId + 1 := rfl
  have ht2 : (loadStart (loadStart s0).1).2 = s0.refreshRunId + 2 := rfl
  have hs2 : (loadStart (loadStart s0).1).1.refreshRunId = s0.refreshRunId + 2 := rfl
  refine ⟨?_, ?_, ?_⟩
  · rw [loadFinish_stale (loadStart s0).2 r1 (loadStart (loadStart s0).1).1
      (by rw [ht1, hs2]; omega)]
  · exact loadFinish_stale (loadStart s0).2 r1 _
      (by rw [ht1, loadFinish_refreshRunId, hs2]; omega)
  · exact loadFinish_rows_current _ r2 _ (by rw [ht2, hs2])

/-- Appending a batch of diagnostic entries touches only the log. -/
theorem foldl_pushLog_fields (logs : List String) (s : ControllerState) :
    (logs.foldl pushLog s).refreshRunId = s.refreshRunId ∧
    (logs.foldl pushLog s).rows = s.rows ∧
    (logs.foldl pushLog s).error = s.error := by
  induction logs generalizing s with
  | nil => exact ⟨rfl, rfl, rfl⟩
  | cons h t ih =>
    have := ih (pushLog s h)
    simpa [pushLog] using this

/-- An enrich finish whose token is still current commits the enriched
rows and leaves the error state untouched. -/
theorem enrichFinish_ok_current (t : ℕ) (enriched : List TableRow)
    (logs : List String) (s : ControllerState) (h : t = s.refreshRunId) :
    (enrichFinish t (.ok (enriched, logs)) s).rows = enriched ∧
    (enrichFinish t (.ok (enriched, logs)) s).error = s.error := by
  obtain ⟨hid, hrows, herr⟩ := foldl_pushLog_fields logs s
  have hguard1 : ¬ (t ≠ (logs.foldl pushLog s).refreshRunId) := by rw [hid]; omega
  simp only [enrichFinish, if_neg hguard1]
  have hguard2 : ¬ (t ≠ (pushLog { logs.foldl pushLog s with rows := enriched }
      ("loadEnrichedEpisodes:success rows=" ++ toString enriched.length)).refreshRunId) := by
    rw [pushLog_refreshRunId]
    simpa using hguard1
  rw [if_neg hguard2]
  exact ⟨rfl, herr⟩

/-- A failed per-row lookup leaves the row unchanged. -/
theorem enrichRow_error_fst (r : TableRow) (msg : String) :
    (enrichRow r (.error msg)).1 = r := by
  unfold enrichRow
  split_ifs
  · rfl
  · cases h : r.releasedUnwatched <;> simp [h]

/-- A failed per-row lookup on an eligible row pushes exactly the
`download-info:error` diagnostic entry. -/
theorem enrichRow_error_snd (r : TableRow) (msg : String)
    (h1 : r.status = TableStatus.CURRENT) (h2 : r.releasedUnwatched ≠ none) :
    (enrichRow r (.error msg)).2 = some (downloadErrorLog r.mediaId msg) := by
  obtain ⟨rel, hrel⟩ := Option.ne_none_iff_exists'.mp h2
  simp [enrichRow, h1, hrel]

/-- C9: a failing per-row local file lookup does not abort enrichment of
the other rows — the row set keeps its length and the failing row is
returned with its prior, non-enriched values — the failure is recorded in
the diagnostic entries of the enrichment pass (when the row was eligible
for a lookup at all), and the controller's visible error state stays empty
after the enrichment run. -/
theorem c9_per_row_failure_isolated (s : ControllerState)
    (fetch : ℕ → Except String (List (Option LocalEpisode)))
    (i : ℕ) (r : TableRow) (msg : String)
    (hr : s.rows[i]? = some r)
    (hfail : fetch r.mediaId = .error msg) :
    (runEnrich s fetch).rows.length = s.rows.length ∧
    (runEnrich s fetch).error = "" ∧
    (runEnrich s fetch).rows[i]? = some r ∧
    (r.status = TableStatus.CURRENT → r.releasedUnwatched ≠ none →
      downloadErrorLog r.mediaId msg ∈ (enrichRowsWithDownloadInfo s.rows fetch).2) := by
  have hstart_rows : (enrichStart s).1.rows = s.rows := rfl
  have hstart_err : (enrichStart s).1.error = "" := rfl
  have hstart_tok : (enrichStart s).2 = (enrichStart s).1.refreshRunId := rfl
  have hfin := enrichFinish_ok_current (enrichStart s).2
    (enrichRowsWithDownloadInfo s.rows fetch).1
    (enrichRowsWithDownloadInfo s.rows fetch).2 (enrichStart s).1 hstart_tok
  have hrun_rows : (runEnrich s fetch).rows = (enrichRowsWithDownloadInfo s.rows fetch).1 := by
    simp only [runEnrich, hstart_rows]
    exact hfin.1
  have hrun_err : (runEnrich s fetch).error = "" := by
    simp only [runEnrich, hstart_rows]
    rw [hfin.2]
    exact hstart_err
  have hmap : (enrichRowsWithDownloadInfo s.rows fetch).1 =
      s.rows.map (fun row => (enrichRow row (fetch row.mediaId)).1) := by
    simp [enrichRowsWithDownloadInfo]
  refine ⟨?_, hrun_err, ?_, ?_⟩
  · rw [hrun_rows, hmap]
    simp
  · rw [hrun_rows, hmap]
    rw [List.getElem?_map, hr]
    simp [hfail, enrichRow_error_fst]
  · intro h1 h2
    have hmem : r ∈ s.rows := List.getElem?_mem hr
    refine List.mem_filterMap.mpr ⟨enrichRow r (fetch r.mediaId), ?_, ?_⟩
    · exact List.mem_map_of_mem _ hmem
    · rw [hfail]
      exact enrichRow_error_snd r msg h1 h2

/-- An eligible CURRENT row with a known `releasedUnwatched`, for the C9
witness. -/
def c9Row : TableRow :=
  { entryId := 9, mediaId := 9, title := "E", coverImage := "", progress := 2,
    latestEpisode := some 5, totalEpisodes := some 5, releasedUnwatched := some 3,
    downloadedUnwatched := none, neededToDownload := none, episodeStatuses := none,
    hiddenEpisodeStatusCount := 0, score := none, status := TableStatus.CURRENT,
    format := "TV", siteUrl := "" }

/-- A controller state holding the single eligible row above, with a
left-over visible error from an earlier cycle. -/
def c9State : ControllerState :=
  { refreshRunId := 0, rows := [c9Row], loading := false, epLoading := false,
    error := "previous", debugLogs := [] }

/-- C9 witness: a lookup that always fails leaves the single row
unchanged, keeps the visible error empty, and records the diagnostic
entry. -/
theorem c9_per_row_failure_witness :
    (runEnrich c9State (fun _ => .error ("boom"))).rows.length = c9State.rows.length ∧
    (runEnrich c9State (fun _ => .error ("boom"))).error = "" ∧
    (runEnrich c9State (fun _ => .error ("boom"))).rows[0]? = some c9Row ∧
    downloadErrorLog 9 ("boom") ∈
      (enrichRowsWithDownloadInfo c9State.rows (fun _ => .error ("boom"))).2 := by
  have h := c9_per_row_failure_isolated c9State (fun _ => .error ("boom")) 0
    c9Row ("boom") (by decide) rfl
  exact ⟨h.1, h.2.1, h.2.2.1, h.2.2.2 (by decide) (by decide)⟩

/-! ### Order-theoretic facts about the collation model -/

/-- `lexCmp` only takes the values -1, 0, 1. -/
theorem lexCmp_trichotomy (a : List ℕ) : ∀ b : List ℕ,
    lexCmp a b = -1 ∨ lexCmp a b = 0 ∨ lexCmp a b = 1 := by
  induction a with
  | nil => intro b; cases b <;> simp [lexCmp]
  | cons x as ih =>
    intro b
    cases b with
    | nil => simp [lexCmp]
    | cons y bs =>
      by_cases h1 : x < y
      · simp [lexCmp, h1]
      · by_cases h2 : y < x
        · simp [lexCmp, h1, h2]
        · simpa [lexCmp, h1, h2] using ih bs

/-- `lexCmp` vanishes exactly on equal lists. -/
theorem lexCmp_eq_zero_iff (a : List ℕ) : ∀ b : List ℕ, lexCmp a b = 0 ↔ a = b := by
  induction a with
  | nil => intro b; cases b <;> simp [lexCmp]
  | cons x as ih =>
    intro b
    cases b with
    | nil => simp [lexCmp]
    | cons y bs =>
      by_cases h1 : x < y
      · simp only [lexCmp, if_pos h1]
        constructor
        · intro h; omega
        · rintro h
          injection h with hxy _
          omega
      · by_cases h2 : y < x
        · simp only [lexCmp, if_neg h1, if_pos h2]
          constructor
          · intro h; omega
          · rintro h
            injection h with hxy _
            omega
        · have hxy : x = y := by omega
          subst hxy
          simp only [lexCmp, if_neg h1, if_neg h2, List.cons.injEq, true_and]
          exact ih bs

/-- Swapping the arguments negates `lexCmp`. -/
theorem lexCmp_swap (a : List ℕ) : ∀ b : List ℕ, lexCmp b a = -lexCmp a b := by
  induction a with
  | nil => intro b; cases b <;> simp [lexCmp]
  | cons x as ih =>
    intro b
    cases b with
    | nil => simp [lexCmp]
    | cons y bs =>
      by_cases h1 : x < y
      · have h2 : ¬ y < x := by omega
        simp [lexCmp, h1, h2]
      · by_cases h2 : y < x
        · simp [lexCmp, h1, h2]
        · simpa [lexCmp, h1, h2] using ih bs

/-- Strict transitivity of the lexicographic comparison. -/
theorem lexCmp_neg_one_trans (a : List ℕ) : ∀ b c : List ℕ,
    lexCmp a b = -1 → lexCmp b c = -1 → lexCmp a c = -1 := by
  induction a with
  | nil =>
    intro b c h1 h2
    cases b with
    | nil => simp [lexCmp] at h1
    | cons y bs =>
      cases c with
      | nil => simp [lexCmp] at h2
      | cons z cs => simp [lexCmp]
  | cons x as ih =>
    intro b c h1 h2
    cases b with
    | nil => simp [lexCmp] at h1
    | cons y bs =>
      cases c with
      | nil => simp [lexCmp] at h2
      | cons z cs =>
        simp only [lexCmp] at h1 h2 ⊢
        by_cases hxy : x < y
        · by_cases hyz : y < z
          · have hxz : x < z := lt_trans hxy hyz
            simp [hxz]
          · by_cases hzy : z < y
            · simp [hyz, hzy] at h2
            · have hxz : x < z := by omega
              simp [hxz]
        · by_cases hyx : y < x
          · simp [hxy, hyx] at h1
          · simp only [if_neg hxy, if_neg hyx] at h1
            by_cases hyz : y < z
            · have hxz : x < z := by omega
              simp [hxz]
            · by_cases hzy : z < y
              · simp [hyz, hzy] at h2
              · simp only [if_neg hyz, if_neg hzy] at h2
                have hxz1 : ¬ x < z := by omega
                have hxz2 : ¬ z < x := by omega
                simp only [if_neg hxz1, if_neg hxz2]
                exact ih bs cs h1 h2

/-- Transitivity of the non-strict lexicographic comparison. -/
theorem lexCmp_le_trans (a b c : List ℕ)
    (h1 : lexCmp a b ≤ 0) (h2 : lexCmp b c ≤ 0) : lexCmp a c ≤ 0 := by
  rcases lexCmp_trichotomy a b with hab | hab | hab
  · rcases lexCmp_trichotomy b c with hbc | hbc | hbc
    · have := lexCmp_neg_one_trans a b c hab hbc
      omega
    · have : b = c := (lexCmp_eq_zero_iff b c).mp hbc
      subst this
      omega
    · omega
  · have : a = b := (lexCmp_eq_zero_iff a b).mp hab
    subst this
    exact h2
  · omega

/-- Swapping the arguments negates `localeCompare`. -/
theorem localeCompare_swap (a b : String) : localeCompare b a = -localeCompare a b := by
  unfold localeCompare
  rw [lexCmp_swap (a.data.map charPrimary) (b.data.map charPrimary),
    lexCmp_swap (a.data.map charCaseWeight) (b.data.map charCaseWeight)]
  by_cases hp : lexCmp (a.data.map charPrimary) (b.data.map charPrimary) = 0
  · simp [hp]
  · have hp2 : ¬ (-lexCmp (a.data.map charPrimary) (b.data.map charPrimary) = 0) := by omega
    simp [hp, hp2]

/-- The comparator used by the loader's sort is total. -/
theorem localeCompare_le_total (a b : String) :
    localeCompare a b ≤ 0 ∨ localeCompare b a ≤ 0 := by
  rw [localeCompare_swap]
  omega

/-- The comparator used by the loader's sort is transitive. -/
theorem localeCompare_le_trans (a b c : String)
    (h1 : localeCompare a b ≤ 0) (h2 : localeCompare b c ≤ 0) :
    localeCompare a c ≤ 0 := by
  simp only [localeCompare] at h1 h2 ⊢
  by_cases hab : lexCmp (a.data.map charPrimary) (b.data.map charPrimary) = 0
  · have hl : a.data.map charPrimary = b.data.map charPrimary :=
      (lexCmp_eq_zero_iff _ _).mp hab
    rw [if_pos hab] at h1
    rw [hl]
    by_cases hbc : lexCmp (b.data.map charPrimary) (c.data.map charPrimary) = 0
    · rw [if_pos hbc] at h2
      rw [if_pos hbc]
      exact lexCmp_le_trans _ _ _ h1 h2
    · rw [if_neg hbc] at h2
      rw [if_neg hbc]
      exact h2
  · rw [if_neg hab] at h1
    by_cases hbc : lexCmp (b.data.map charPrimary) (c.data.map charPrimary) = 0
    · have hl : b.data.map charPrimary = c.data.map charPrimary :=
        (lexCmp_eq_zero_iff _ _).mp hbc
      rw [← hl, if_neg hab]
      exact h1
    · rw [if_neg hbc] at h2
      have hab1 : lexCmp (a.data.map charPrimary) (b.data.map charPrimary) = -1 := by
        rcases lexCmp_trichotomy (a.data.map charPrimary) (b.data.map charPrimary)
          with h | h | h <;> omega
      have hbc1 : lexCmp (b.data.map charPrimary) (c.data.map charPrimary) = -1 := by
        rcases lexCmp_trichotomy (b.data.map charPrimary) (c.data.map charPrimary)
          with h | h | h <;> omega
      have hac := lexCmp_neg_one_trans _ _ _ hab1 hbc1
      rw [hac]
      norm_num

/-- Characters are determined by their primary and case collation
weights. -/
theorem char_of_weights (c d : Char) (hp : charPrimary c = charPrimary d)
    (hw : charCaseWeight c = charCaseWeight d) : c = d := by
  have toNat_inj : c.toNat = d.toNat → c = d := by
    intro h
    have := congrArg Char.ofNat h
    simpa using this
  simp only [charPrimary, charCaseWeight] at hp hw
  by_cases hc : 65 ≤ c.toNat ∧ c.toNat ≤ 90
  · by_cases hd : 65 ≤ d.toNat ∧ d.toNat ≤ 90
    · rw [if_pos hc, if_pos hd] at hp
      exact toNat_inj (by omega)
    · rw [if_pos hc, if_neg hd] at hw
      omega
  · by_cases hd : 65 ≤ d.toNat ∧ d.toNat ≤ 90
    · rw [if_neg hc, if_pos hd] at hw
      omega
    · rw [if_neg hc, if_neg hd] at hp
      exact toNat_inj hp

/-- Character lists are determined by their weight lists. -/
theorem char_list_of_weights (l1 : List Char) : ∀ l2 : List Char,
    l1.map charPrimary = l2.map charPrimary →
    l1.map charCaseWeight = l2.map charCaseWeight → l1 = l2 := by
  induction l1 with
  | nil =>
    intro l2 hp _
    cases l2 with
    | nil => rfl
    | cons y ys => simp at hp
  | cons x xs ih =>
    intro l2 hp hw
    cases l2 with
    | nil => simp at hp
    | cons y ys =>
      simp only [List.map_cons, List.cons.injEq] at hp hw
      exact List.cons_eq_cons.mpr
        ⟨char_of_weights x y hp.1 hw.1, ih ys hp.2 hw.2⟩

/-- The loader's comparator vanishes only on identical titles: a pair of
titles that differ at all — even only in letter case — is strictly
ordered, in exactly one way. -/
theorem localeCompare_eq_zero_iff_eq (a b : String) :
    localeCompare a b = 0 ↔ a = b := by
  constructor
  · intro h
    unfold localeCompare at h
    by_cases hp : lexCmp (a.data.map charPrimary) (b.data.map charPrimary) = 0
    · rw [if_pos hp] at h
      have h1 := (lexCmp_eq_zero_iff _ _).mp hp
      have h2 := (lexCmp_eq_zero_iff _ _).mp h
      have hdata : a.data = b.data := char_list_of_weights a.data b.data h1 h2
      cases a
      cases b
      exact congrArg String.mk hdata
    · rw [if_neg hp] at h
      exact absurd h hp
  · rintro rfl
    unfold localeCompare
    rw [if_pos ((lexCmp_eq_zero_iff _ _).mpr rfl)]
    exact (lexCmp_eq_zero_iff _ _).mpr rfl

/-- Transitivity of the loader's boolean sort relation. -/
theorem rowTitleLe_trans (a b c : TableRow)
    (h1 : rowTitleLe a b) (h2 : rowTitleLe b c) : rowTitleLe a c := by
  simp only [rowTitleLe, decide_eq_true_eq] at h1 h2 ⊢
  exact localeCompare_le_trans _ _ _ h1 h2

/-- Totality of the loader's boolean sort relation. -/
theorem rowTitleLe_total (a b : TableRow) : rowTitleLe a b || rowTitleLe b a := by
  rcases localeCompare_le_total a.title b.title with h | h <;>
    simp [rowTitleLe, h]

/-- A list that is a permutation of an explicit pair is one of the two
arrangements of that pair. -/
theorem perm_pair_cases {α : Type} {l : List α} {a b : α}
    (h : l.Perm [a, b]) : l = [a, b] ∨ l = [b, a] := by
  have hlen : l.length = 2 := h.length_eq
  match l, hlen, h with
  | [x, y], _, h =>
    have hx : x ∈ [a, b] := h.mem_iff.mp (by simp)
    have hy : y ∈ [a, b] := h.mem_iff.mp (by simp)
    rcases List.mem_pair.mp hx with rfl | rfl
    · have h2 : y = b := by simpa using h.cons_inv
      subst h2
      exact Or.inl rfl
    · rcases List.mem_pair.mp hy with rfl | rfl
      · exact Or.inr rfl
      · have ha : a ∈ ([y, y] : List α) := h.mem_iff.mpr (by simp)
        have hab : a = y := by simpa using ha
        subst hab
        exact Or.inl rfl

/-- A title record named "Apple". -/
def c5MediaUpper : BaseAnime :=
  { id := 1,
    title := some
      { userPreferred := some ("Apple"), romaji := none,
        english := none, native := none },
    coverImage := none, episodes := none, nextAiringEpisode := none,
    format := none, siteUrl := none }

/-- A title record named "apple". -/
def c5MediaLower : BaseAnime :=
  { id := 2,
    title := some
      { userPreferred := some ("apple"), romaji := none,
        english := none, native := none },
    coverImage := none, episodes := none, nextAiringEpisode := none,
    format := none, siteUrl := none }

/-- A remote collection with one COMPLETED list holding the entries
titled "Apple" (first) and "apple" (second). -/
def c5Collection : AnimeCollection :=
  { lists := some [
      { status := some ("COMPLETED"),
        entries := some [
          { id := 1, media := some c5MediaUpper, progress := none,
            score := none, status := none },
          { id := 2, media := some c5MediaLower, progress := none,
            score := none, status := none } ] } ] }

/-- The projected row for the "Apple" entry. -/
def c5RowUpper : TableRow :=
  { entryId := 1, mediaId := 1, title := "Apple", coverImage := "", progress := 0,
    latestEpisode := none, totalEpisodes := none, releasedUnwatched := none,
    downloadedUnwatched := none, neededToDownload := none, episodeStatuses := none,
    hiddenEpisodeStatusCount := 0, score := none, status := TableStatus.COMPLETED,
    format := "-", siteUrl := "https://anilist.co/anime/1" }

/-- The projected row for the "apple" entry. -/
def c5RowLower : TableRow :=
  { entryId := 2, mediaId := 2, title := "apple", coverImage := "", progress := 0,
    latestEpisode := none, totalEpisodes := none, releasedUnwatched := none,
    downloadedUnwatched := none, neededToDownload := none, episodeStatuses := none,
    hiddenEpisodeStatusCount := 0, score := none, status := TableStatus.COMPLETED,
    format := "-", siteUrl := "https://anilist.co/anime/2" }

/-- C5 counterexample: the loader's comparator is the *default*
`localeCompare`, which breaks base-letter ties by case (lower case
first).  On two rows whose titles differ only in case the loader always
produces `["apple", "Apple"]`, and the swapped order `["Apple", "apple"]`
does *not* satisfy the sort (`localeCompare "Apple" "apple" = 1 > 0`),
refuting "either order of the pair satisfies the sort" — even though the
base-sensitivity comparison used elsewhere in the view would indeed tie
them. -/
theorem c5_loader_case_counterexample :
    (loadRows c5Collection).map TableRow.title = ["apple", "Apple"] ∧
    ¬ localeCompare ("Apple") ("apple") ≤ 0 ∧
    localeCompareBase ("Apple") ("apple") = 0 := by
  have hload : loadRows c5Collection =
      ((c5Collection.lists.getD []).flatMap (fun list =>
        (list.entries.getD []).filterMap (fun entry =>
          toRow entry list.status))).mergeSort rowTitleLe := rfl
  have hproj : (c5Collection.lists.getD []).flatMap (fun list =>
      (list.entries.getD []).filterMap (fun entry => toRow entry list.status))
      = [c5RowUpper, c5RowLower] := by decide
  have hbase : loadRows c5Collection =
      ([c5RowUpper, c5RowLower] : List TableRow).mergeSort rowTitleLe := by
    rw [hload, hproj]
  have hperm := List.mergeSort_perm [c5RowUpper, c5RowLower] rowTitleLe
  have hsorted := @List.sorted_mergeSort TableRow rowTitleLe rowTitleLe_trans
    rowTitleLe_total [c5RowUpper, c5RowLower]
  rcases perm_pair_cases hperm with he | he
  · rw [he] at hsorted
    have hle : rowTitleLe c5RowUpper c5RowLower := by
      have hp := List.pairwise_cons.mp hsorted
      exact hp.1 _ (by simp)
    exact absurd hle (by decide)
  · rw [hbase, he]
    exact ⟨rfl, by decide, by decide⟩

/-- C5 (amended): the loader returns the projected rows sorted by title
under the locale-aware *default* comparison, which is case-sensitive at
the tiebreak level: the comparator vanishes only on identical titles, so
a pair of rows whose titles differ only in letter case has exactly one
admissible order (lower case first) rather than either order. -/
theorem c5_loader_sorted_amended (c : AnimeCollection) :
    List.Pairwise (fun a b : TableRow => localeCompare a.title b.title ≤ 0)
      (loadRows c) ∧
    (∀ s t : String, localeCompare s t = 0 → s = t) := by
  constructor
  · have hsorted := @List.sorted_mergeSort TableRow rowTitleLe rowTitleLe_trans
      rowTitleLe_total
      ((c.lists.getD []).flatMap (fun list =>
        (list.entries.getD []).filterMap (fun entry => toRow entry list.status)))
    have hload : loadRows c =
        ((c.lists.getD []).flatMap (fun list =>
          (list.entries.getD []).filterMap (fun entry =>
            toRow entry list.status))).mergeSort rowTitleLe := rfl
    rw [hload]
    exact hsorted.imp (fun h => by simpa [rowTitleLe] using h)
  · intro s t h
    exact (localeCompare_eq_zero_iff_eq s t).mp h

/-- C5 witness: the amended sortedness at the concrete collection, and
the only-equal-titles-tie conjunct discharged at a concrete pair. -/
theorem c5_loader_sorted_witness :
    List.Pairwise (fun a b : TableRow => localeCompare a.title b.title ≤ 0)
      (loadRows c5Collection) ∧ ("apple" : String) = "apple" :=
  ⟨(c5_loader_sorted_amended c5Collection).1,
    (c5_loader_sorted_amended c5Collection).2 ("apple") ("apple") (by decide)⟩

end SeanimeTable
